import Mathlib

/-!
Shallow embedding of the retirement model (survival curve, annuity pricer,
age-pension means test, year-by-year drawdown simulation), over the reals.
Fallible operations (the pandas Series construction, which raises when the
value list and the index list have different lengths, and everything that
calls it) are modelled with Option: none stands for the raised fault.
-/

noncomputable section

inductive Sex where
  | male
  | female
deriving DecidableEq

inductive Scenario where
  | poor
  | average
  | strong
deriving DecidableEq

/-- Default baseline hazard chosen by sex when the caller passes a = None. -/
def defaultA : Sex → ℝ
  | Sex.male => 3e-5
  | Sex.female => 2e-5

/-- Integrated Gompertz hazard over one year starting at the given age:
(a/b) * (exp(b*(age+1)) - exp(b*age)). -/
def integratedHazard (a b : ℝ) (age : ℕ) : ℝ :=
  (a / b) * (Real.exp (b * ((age : ℝ) + 1)) - Real.exp (b * (age : ℝ)))

/-- The survival-probability accumulation loop: starting from current value s,
walk the list of ages, multiplying by exp(-H) at each step and emitting the
running value after each multiplication. -/
def survivalAux (a b : ℝ) : ℝ → List ℕ → List ℝ
  | _, [] => []
  | s, age :: rest =>
    let s2 := s * Real.exp (-(integratedHazard a b age))
    s2 :: survivalAux a b s2 rest

/-- The list S built by survival_curve: starts at 1.0, then one entry per age
in ages[:-1] (the iterated ages are range' age0 (max_age + 1 - age0 - 1)). -/
def survivalVals (age0 max_age : ℕ) (a b : ℝ) : List ℝ :=
  1.0 :: survivalAux a b 1.0 (List.range' age0 (max_age + 1 - age0 - 1))

/-- survival_curve: pairs the index ages with the values S, as pd.Series does;
the Series constructor raises when the lengths differ (modelled as none). -/
def survival_curve (age0 max_age : ℕ) (sex : Sex) (aOpt : Option ℝ) (b : ℝ) :
    Option (List (ℕ × ℝ)) :=
  let a := aOpt.getD (defaultA sex)
  let ages := List.range' age0 (max_age + 1 - age0)
  let S := survivalVals age0 max_age a b
  if S.length = ages.length then some (ages.zip S) else none

/-- survival_percentile_ages: for each requested percentile p, filter the curve
to the entries with probability strictly below p and take the first index
label (age), absent when the filtered set is empty. -/
def survival_percentile_ages (age0 : ℕ) (sex : Sex) (percentiles : List ℝ)
    (max_age : ℕ) : Option (List (ℝ × Option ℕ)) :=
  (survival_curve age0 max_age sex none 0.09).map fun S =>
    percentiles.map fun p =>
      (p, ((S.filter fun q => decide (q.2 < p)).head?).map Prod.fst)

/-- The present-value accumulation loop of annuity_payout_per_dollar:
enumerate the curve entries with index t, adding v^t * S(t) once t has passed
the deferral period. -/
def pvGo (v : ℝ) (deferral_years : ℕ) : ℕ → ℝ → List (ℕ × ℝ) → ℝ
  | _, acc, [] => acc
  | t, acc, q :: rest =>
    pvGo v deferral_years (t + 1)
      (if deferral_years + 1 ≤ t then acc + v ^ t * q.2 else acc) rest

/-- annuity_payout_per_dollar: reciprocal of the survival-weighted present
value of one dollar of yearly income starting after the deferral period;
zero when that present value is zero. -/
def annuity_payout_per_dollar (age0 : ℕ) (sex : Sex) (deferral_years : ℕ)
    (real_discount : ℝ) (max_age : ℕ) : Option ℝ :=
  (survival_curve age0 max_age sex none 0.09).map fun S =>
    let v := 1 / (1 + real_discount)
    let pv := pvGo v deferral_years 0 0 S
    if pv = 0 then 0 else 1.0 / pv

/-- annuity_income_schedule: income per age over the horizon, zero before the
first payment age age0 + deferral_years + 1 and purchase_amount * rate from
then on; returned together with the rate. -/
def annuity_income_schedule (purchase_amount : ℝ) (age0 : ℕ) (sex : Sex)
    (deferral_years : ℕ) (real_discount : ℝ) (max_age : ℕ) :
    Option (List (ℕ × ℝ) × ℝ) :=
  (annuity_payout_per_dollar age0 sex deferral_years real_discount max_age).map
    fun rate =>
      let ages := List.range' age0 (max_age + 1 - age0)
      let start_age := age0 + deferral_years + 1
      (ages.map fun age =>
        (age, if start_age ≤ age then purchase_amount * rate else 0), rate)

/-- deeming_income: two-tier deemed income on financial assets. -/
def deeming_income (financial_assets deeming_threshold deem_rate_low
    deem_rate_high : ℝ) : ℝ :=
  min financial_assets deeming_threshold * deem_rate_low +
    max 0 (financial_assets - deeming_threshold) * deem_rate_high

/-- age_pension_amount: the simplified means test; minimum of the income test
and the assets test, each floored at zero below the maximum pension. -/
def age_pension_amount (assets annuity_payment annuity_purchase_price : ℝ)
    (age : ℕ) (singles homeowner include_annuity_rules : Bool)
    (max_single max_couple income_free_area_single income_free_area_couple
      income_taper assets_threshold_single_home assets_threshold_couple_home
      assets_taper_pa_per_1000 deeming_threshold_single deem_rate_low
      deem_rate_high annuity_income_inclusion annuity_asset_pct_before84
      annuity_asset_pct_after84 : ℝ) : ℝ :=
  let max_pension := if singles then max_single else max_couple
  let single_thresh := deeming_threshold_single
  let couple_thresh := deeming_threshold_single * 2
  let deem_thresh := if singles then single_thresh else couple_thresh
  let base_income := deeming_income assets deem_thresh deem_rate_low deem_rate_high
  let assessable_income :=
    if include_annuity_rules = true ∧ 0 < annuity_payment then
      base_income + annuity_income_inclusion * annuity_payment
    else base_income
  let free_area := if singles then income_free_area_single else income_free_area_couple
  let income_test_reduction := max 0 ((assessable_income - free_area) * income_taper)
  let pension_income_test := max 0 (max_pension - income_test_reduction)
  let threshold :=
    if singles then assets_threshold_single_home else assets_threshold_couple_home
  let annuity_asset :=
    if include_annuity_rules = true ∧ 0 < annuity_purchase_price then
      (if 84 ≤ age then annuity_asset_pct_after84 * annuity_purchase_price
       else annuity_asset_pct_before84 * annuity_purchase_price)
    else 0
  let assessable_assets := assets + annuity_asset
  let assets_excess := max 0 (assessable_assets - threshold)
  let assets_test_reduction := (assets_excess / 1000) * assets_taper_pa_per_1000
  let pension_assets_test := max 0 (max_pension - assets_test_reduction)
  min pension_income_test pension_assets_test

/-- One row of the simulation output DataFrame. -/
structure YearRecord where
  age : ℕ
  abp_income : ℝ
  age_pension : ℝ
  annuity_income : ℝ
  total_income : ℝ
  abp_balance_end : ℝ

/-- A YearRecord together with the survival_prob column. -/
structure YearRecordS where
  age : ℕ
  abp_income : ℝ
  age_pension : ℝ
  annuity_income : ℝ
  total_income : ℝ
  abp_balance_end : ℝ
  survival_prob : ℝ

instance : Inhabited YearRecord := ⟨⟨0, 0, 0, 0, 0, 0⟩⟩

instance : Inhabited YearRecordS := ⟨⟨0, 0, 0, 0, 0, 0, 0⟩⟩

/-- Scenario dictionary lookup for the real return. -/
def scenarioRate (scenario : Scenario)
    (real_return_poor real_return_avg real_return_strong : ℝ) : ℝ :=
  match scenario with
  | Scenario.poor => real_return_poor
  | Scenario.average => real_return_avg
  | Scenario.strong => real_return_strong

/-- The per-age loop of simulate_retirement: walks the annuity income series
(whose index labels are exactly the iterated ages), carrying the ABP balance,
emitting one record per age.  The age_pension_amount call passes the source
defaults for every parameter the simulator does not set. -/
def simLoop (r target_income annuity_premium : ℝ)
    (include_age_pension singles homeowner : Bool) :
    ℝ → List (ℕ × ℝ) → List YearRecord
  | _, [] => []
  | bal, (age, a_income) :: rest =>
    let pension :=
      if include_age_pension then
        age_pension_amount bal a_income annuity_premium age singles homeowner
          true 28600 43100 4940 8736 0.5 301750 451500 78 60400 0.0025
          0.0225 0.60 0.60 0.30
      else 0
    let need := max 0 (target_income - a_income - pension)
    let draw := min need (bal * (1 + r))
    let bal2 := bal * (1 + r) - draw
    { age := age, abp_income := draw, age_pension := pension,
      annuity_income := a_income, total_income := draw + pension + a_income,
      abp_balance_end := bal2 } ::
      simLoop r target_income annuity_premium include_age_pension singles
        homeowner bal2 rest

/-- Attach the survival_prob column entry to a simulation row, as the final
DataFrame construction does. -/
def attachSurv (y : YearRecord) (q : ℕ × ℝ) : YearRecordS :=
  { age := y.age, abp_income := y.abp_income, age_pension := y.age_pension,
    annuity_income := y.annuity_income, total_income := y.total_income,
    abp_balance_end := y.abp_balance_end, survival_prob := q.2 }

/-- simulate_retirement: allocate the annuity premium at t = 0, price the
annuity and its income schedule, pick the scenario return, run the yearly
loop, and attach the survival_prob column (truncated to the age range). -/
def simulate_retirement (starting_balance : ℝ) (retire_age : ℕ) (sex : Sex)
    (target_income : ℝ) (scenario : Scenario) (annuity_alloc_pct : ℝ)
    (annuity_deferral_years : ℕ) (r_ann : ℝ)
    (real_return_poor real_return_avg real_return_strong : ℝ)
    (singles homeowner include_age_pension : Bool) (max_age : ℕ) :
    Option (List YearRecordS × ℝ) :=
  let annuity_premium := starting_balance * annuity_alloc_pct
  let abp_balance := starting_balance - annuity_premium
  match annuity_income_schedule annuity_premium retire_age sex
      annuity_deferral_years r_ann max_age with
  | none => none
  | some (ann_income_series, ann_rate) =>
    match survival_curve retire_age max_age sex none 0.09 with
    | none => none
    | some surv =>
      let r := scenarioRate scenario real_return_poor real_return_avg real_return_strong
      let raw := simLoop r target_income annuity_premium include_age_pension
        singles homeowner abp_balance ann_income_series
      some (List.zipWith attachSurv raw surv, ann_rate)

/-! ### Survival curve lemmas -/

theorem survivalAux_length (a b : ℝ) :
    ∀ (l : List ℕ) (s : ℝ), (survivalAux a b s l).length = l.length := by
  intro l
  induction l with
  | nil => intro s; rfl
  | cons x t ih => intro s; simp [survivalAux, ih]

theorem survivalAux_step (a b : ℝ) :
    ∀ (l : List ℕ) (s : ℝ) (i : ℕ), i < l.length →
      (s :: survivalAux a b s l).getD (i + 1) 0 =
        (s :: survivalAux a b s l).getD i 0 *
          Real.exp (-(integratedHazard a b (l.getD i 0))) := by
  intro l
  induction l with
  | nil => intro s i hi; simp at hi
  | cons x t ih =>
    intro s i hi
    match i with
    | 0 => simp [survivalAux]
    | j + 1 =>
      have h := ih (s * Real.exp (-(integratedHazard a b x))) j
        (by simpa using hi)
      simpa [survivalAux] using h

theorem survivalAux_pos (a b : ℝ) :
    ∀ (l : List ℕ) (s : ℝ), 0 < s → ∀ i, i < l.length + 1 →
      0 < (s :: survivalAux a b s l).getD i 0 := by
  intro l
  induction l with
  | nil =>
    intro s hs i hi
    simp only [List.length_nil] at hi
    have h0 : i = 0 := by omega
    subst h0; simpa using hs
  | cons x t ih =>
    intro s hs i hi
    match i with
    | 0 => simpa using hs
    | j + 1 =>
      have hpos : 0 < s * Real.exp (-(integratedHazard a b x)) :=
        mul_pos hs (Real.exp_pos _)
      have h := ih _ hpos j (by simpa using hi)
      simpa [survivalAux] using h

theorem survivalVals_length (age0 max_age : ℕ) (a b : ℝ) :
    (survivalVals age0 max_age a b).length = (max_age + 1 - age0 - 1) + 1 := by
  simp [survivalVals, survivalAux_length]

theorem survivalVals_getD_zero (age0 max_age : ℕ) (a b : ℝ) :
    (survivalVals age0 max_age a b).getD 0 0 = 1 := by
  norm_num [survivalVals]

theorem survivalVals_step (age0 max_age : ℕ) (a b : ℝ) (i : ℕ)
    (hi : i + 1 < (survivalVals age0 max_age a b).length) :
    (survivalVals age0 max_age a b).getD (i + 1) 0 =
      (survivalVals age0 max_age a b).getD i 0 *
        Real.exp (-(integratedHazard a b (age0 + i))) := by
  have hlen : i < (List.range' age0 (max_age + 1 - age0 - 1)).length := by
    rw [survivalVals_length] at hi
    simp only [List.length_range']
    omega
  have h := survivalAux_step a b (List.range' age0 (max_age + 1 - age0 - 1))
    1.0 i hlen
  have hrange : (List.range' age0 (max_age + 1 - age0 - 1)).getD i 0 =
      age0 + i := by
    rw [List.getD_eq_getElem _ _ hlen, List.getElem_range'_1]
  rw [hrange] at h
  exact h

theorem survivalVals_pos (age0 max_age : ℕ) (a b : ℝ) (i : ℕ)
    (hi : i < (survivalVals age0 max_age a b).length) :
    0 < (survivalVals age0 max_age a b).getD i 0 := by
  have hlen := survivalVals_length age0 max_age a b
  apply survivalAux_pos a b (List.range' age0 (max_age + 1 - age0 - 1)) 1.0
    (by norm_num) i
  simp only [List.length_range']
  omega

theorem integratedHazard_nonneg (a b : ℝ) (ha : 0 < a) (hb : 0 < b)
    (age : ℕ) : 0 ≤ integratedHazard a b age := by
  unfold integratedHazard
  have h1 : Real.exp (b * (age : ℝ)) ≤ Real.exp (b * ((age : ℝ) + 1)) := by
    apply Real.exp_le_exp.mpr
    nlinarith
  have h2 : (0 : ℝ) ≤ a / b := by positivity
  nlinarith

theorem exp_neg_hazard_le_one (a b : ℝ) (ha : 0 < a) (hb : 0 < b)
    (age : ℕ) : Real.exp (-(integratedHazard a b age)) ≤ 1 := by
  have h := integratedHazard_nonneg a b ha hb age
  calc Real.exp (-(integratedHazard a b age)) ≤ Real.exp 0 :=
        Real.exp_le_exp.mpr (by linarith)
    _ = 1 := Real.exp_zero

/-- Claim C4: for start_age ≤ max_age and positive hazard parameters a, b, the
survival curve has exactly max_age - start_age + 1 entries, one per integer
age from start to max, starts at probability 1.0, and is monotonically
non-increasing with each step multiplying by
exp(-(a/b)*(exp(b*(age+1)) - exp(b*age))). -/
theorem c4_survival_curve_shape (age0 max_age : ℕ) (sex : Sex) (a b : ℝ)
    (hrange : age0 ≤ max_age) (ha : 0 < a) (hb : 0 < b) :
    ∃ C, survival_curve age0 max_age sex (some a) b = some C ∧
      C.length = max_age - age0 + 1 ∧
      (∀ i, i < C.length → (C.getD i (0, 0)).1 = age0 + i) ∧
      (C.getD 0 (0, 0)).2 = 1 ∧
      (∀ i, i + 1 < C.length →
        (C.getD (i + 1) (0, 0)).2 =
          (C.getD i (0, 0)).2 * Real.exp (-(integratedHazard a b (age0 + i))) ∧
        (C.getD (i + 1) (0, 0)).2 ≤ (C.getD i (0, 0)).2) := by
  have hS := survivalVals_length age0 max_age a b
  have hages : (List.range' age0 (max_age + 1 - age0)).length =
      max_age + 1 - age0 := by simp
  have hlen : (survivalVals age0 max_age a b).length =
      (List.range' age0 (max_age + 1 - age0)).length := by
    rw [hS, hages]; omega
  refine ⟨(List.range' age0 (max_age + 1 - age0)).zip
    (survivalVals age0 max_age a b), ?_, ?_, ?_, ?_, ?_⟩
  · simp only [survival_curve, Option.getD_some, hlen, if_pos]
  · rw [List.length_zip, hages, hS]; omega
  · intro i hi
    rw [List.length_zip, hages, hS] at hi
    have hi1 : i < (List.range' age0 (max_age + 1 - age0)).length := by
      rw [hages]; omega
    have hi2 : i < (survivalVals age0 max_age a b).length := by omega
    have hiz : i < ((List.range' age0 (max_age + 1 - age0)).zip
        (survivalVals age0 max_age a b)).length := by
      rw [List.length_zip]; omega
    rw [List.getD_eq_getElem _ _ hiz, List.getElem_zip, List.getElem_range'_1]
  · have h0 : 0 < ((List.range' age0 (max_age + 1 - age0)).zip
        (survivalVals age0 max_age a b)).length := by
      rw [List.length_zip, hages, hS]; omega
    have h1 : 0 < (List.range' age0 (max_age + 1 - age0)).length := by
      rw [hages]; omega
    have h2 : 0 < (survivalVals age0 max_age a b).length := by omega
    rw [List.getD_eq_getElem _ _ h0, List.getElem_zip]
    show (survivalVals age0 max_age a b)[0] = 1
    rw [← List.getD_eq_getElem _ 0 h2, survivalVals_getD_zero]
  · intro i hi
    rw [List.length_zip, hages, hS] at hi
    have hz1 : i < ((List.range' age0 (max_age + 1 - age0)).zip
        (survivalVals age0 max_age a b)).length := by
      rw [List.length_zip, hages, hS]; omega
    have hz2 : i + 1 < ((List.range' age0 (max_age + 1 - age0)).zip
        (survivalVals age0 max_age a b)).length := by
      rw [List.length_zip, hages, hS]; omega
    have hv1 : i < (survivalVals age0 max_age a b).length := by omega
    have hv2 : i + 1 < (survivalVals age0 max_age a b).length := by omega
    have hstep := survivalVals_step age0 max_age a b i hv2
    have heq1 : (((List.range' age0 (max_age + 1 - age0)).zip
        (survivalVals age0 max_age a b)).getD i (0, 0)).2 =
        (survivalVals age0 max_age a b).getD i 0 := by
      rw [List.getD_eq_getElem _ _ hz1, List.getElem_zip,
        List.getD_eq_getElem _ _ hv1]
    have heq2 : (((List.range' age0 (max_age + 1 - age0)).zip
        (survivalVals age0 max_age a b)).getD (i + 1) (0, 0)).2 =
        (survivalVals age0 max_age a b).getD (i + 1) 0 := by
      rw [List.getD_eq_getElem _ _ hz2, List.getElem_zip,
        List.getD_eq_getElem _ _ hv2]
    rw [heq1, heq2]
    refine ⟨hstep, ?_⟩
    rw [hstep]
    have hpos := survivalVals_pos age0 max_age a b i hv1
    have hle := exp_neg_hazard_le_one a b ha hb (age0 + i)
    nlinarith

/-- Witness for C4 at start_age = 67, max_age = 70, a = 3e-5, b = 0.09. -/
theorem c4_witness :
    (67 : ℕ) ≤ 70 ∧ (0 : ℝ) < 3e-5 ∧ (0 : ℝ) < 0.09 ∧
    (∃ C, survival_curve 67 70 Sex.male (some 3e-5) 0.09 = some C ∧
      C.length = 70 - 67 + 1 ∧
      (∀ i, i < C.length → (C.getD i (0, 0)).1 = 67 + i) ∧
      (C.getD 0 (0, 0)).2 = 1 ∧
      (∀ i, i + 1 < C.length →
        (C.getD (i + 1) (0, 0)).2 =
          (C.getD i (0, 0)).2 *
            Real.exp (-(integratedHazard 3e-5 0.09 (67 + i))) ∧
        (C.getD (i + 1) (0, 0)).2 ≤ (C.getD i (0, 0)).2)) :=
  ⟨by norm_num, by norm_num, by norm_num,
    c4_survival_curve_shape 67 70 Sex.male 3e-5 0.09 (by norm_num)
      (by norm_num) (by norm_num)⟩

/-- Claim C7 (amended): for start_age = max_age the curve is the single-point
sequence [(start_age, 1.0)]; for start_age > max_age the Series construction
fails (values list has one entry, index is empty), raising an error rather
than producing a trivial curve. -/
theorem c7_amended (age0 max_age : ℕ) (sex : Sex) (aOpt : Option ℝ) (b : ℝ) :
    (age0 = max_age → survival_curve age0 max_age sex aOpt b =
      some [(age0, 1.0)]) ∧
    (max_age < age0 → survival_curve age0 max_age sex aOpt b = none) := by
  constructor
  · intro h
    rw [h]
    have h1 : max_age + 1 - max_age = 1 := by omega
    have h2 : max_age + 1 - max_age - 1 = 0 := by omega
    simp [survival_curve, survivalVals, survivalAux, h1, h2]
  · intro h
    have h1 : max_age + 1 - age0 = 0 := by omega
    have h2 : max_age + 1 - age0 - 1 = 0 := by omega
    simp [survival_curve, survivalVals, survivalAux, h1, h2]

/-- Counterexample to C7 as stated: with start_age = 68 > max_age = 67 the
Series construction fails (modelled as none); no single-point curve is
returned. -/
theorem c7_counterexample :
    survival_curve 68 67 Sex.male none 0.09 = none ∧
    survival_curve 68 67 Sex.male none 0.09 ≠ some [(68, 1.0)] := by
  constructor
  · simp [survival_curve, survivalVals, survivalAux]
  · simp [survival_curve, survivalVals, survivalAux]

/-! ### Annuity pricer lemmas -/

theorem survival_curve_eq_some (age0 max_age : ℕ) (sex : Sex)
    (aOpt : Option ℝ) (b : ℝ) (hrange : age0 ≤ max_age) :
    survival_curve age0 max_age sex aOpt b =
      some ((List.range' age0 (max_age + 1 - age0)).zip
        (survivalVals age0 max_age (aOpt.getD (defaultA sex)) b)) := by
  have hS := survivalVals_length age0 max_age (aOpt.getD (defaultA sex)) b
  have hlen : (survivalVals age0 max_age (aOpt.getD (defaultA sex)) b).length =
      (List.range' age0 (max_age + 1 - age0)).length := by
    rw [hS]; simp; omega
  simp only [survival_curve, hlen, if_pos]

theorem pvGo_eq_sum (v : ℝ) (d : ℕ) :
    ∀ (l : List (ℕ × ℝ)) (t : ℕ) (acc : ℝ),
      pvGo v d t acc l = acc + ∑ i ∈ Finset.range l.length,
        (if d + 1 ≤ t + i then v ^ (t + i) * (l.getD i (0, 0)).2 else 0) := by
  intro l
  induction l with
  | nil => intro t acc; simp [pvGo]
  | cons q rest ih =>
    intro t acc
    rw [pvGo, ih]
    rw [List.length_cons, Finset.sum_range_succ']
    simp only [List.getD_cons_succ, List.getD_cons_zero, Nat.add_zero]
    have hc : ∀ i : ℕ, t + (i + 1) = t + 1 + i := fun i => by omega
    have hsum : ∑ i ∈ Finset.range rest.length,
        (if d + 1 ≤ t + (i + 1) then v ^ (t + (i + 1)) *
          (rest.getD i (0, 0)).2 else 0) =
        ∑ i ∈ Finset.range rest.length,
        (if d + 1 ≤ t + 1 + i then v ^ (t + 1 + i) *
          (rest.getD i (0, 0)).2 else 0) := by
      apply Finset.sum_congr rfl
      intro i _
      rw [hc i]
    rw [hsum]
    by_cases hdt : d + 1 ≤ t
    · rw [if_pos hdt, if_pos hdt]; ring
    · rw [if_neg hdt, if_neg hdt]; ring

theorem range_filter_eq_Ico (d n : ℕ) :
    (Finset.range n).filter (fun i => d + 1 ≤ i) = Finset.Ico (d + 1) n := by
  ext i
  simp only [Finset.mem_filter, Finset.mem_range, Finset.mem_Ico]
  omega

theorem annuity_payout_eq (age0 max_age d : ℕ) (sex : Sex) (rd : ℝ)
    (hrange : age0 ≤ max_age) :
    annuity_payout_per_dollar age0 sex d rd max_age =
      some (if (∑ t ∈ Finset.Ico (d + 1) (max_age - age0 + 1),
          (1 / (1 + rd)) ^ t *
            (survivalVals age0 max_age (defaultA sex) 0.09).getD t 0) = 0
        then 0
        else 1.0 / ∑ t ∈ Finset.Ico (d + 1) (max_age - age0 + 1),
          (1 / (1 + rd)) ^ t *
            (survivalVals age0 max_age (defaultA sex) 0.09).getD t 0) := by
  rw [annuity_payout_per_dollar, survival_curve_eq_some age0 max_age sex none
    0.09 hrange]
  simp only [Option.map_some', Option.getD_none]
  have hzlen : ((List.range' age0 (max_age + 1 - age0)).zip
      (survivalVals age0 max_age (defaultA sex) 0.09)).length =
      max_age - age0 + 1 := by
    rw [List.length_zip, survivalVals_length]
    simp
    omega
  have hpv := pvGo_eq_sum (1 / (1 + rd)) d
    ((List.range' age0 (max_age + 1 - age0)).zip
      (survivalVals age0 max_age (defaultA sex) 0.09)) 0 0
  simp only [Nat.zero_add, zero_add] at hpv
  have hsum : ∑ i ∈ Finset.range ((List.range' age0 (max_age + 1 - age0)).zip
        (survivalVals age0 max_age (defaultA sex) 0.09)).length,
      (if d + 1 ≤ i then (1 / (1 + rd)) ^ i *
        (((List.range' age0 (max_age + 1 - age0)).zip
          (survivalVals age0 max_age (defaultA sex) 0.09)).getD i (0, 0)).2
       else 0) =
      ∑ t ∈ Finset.Ico (d + 1) (max_age - age0 + 1),
        (1 / (1 + rd)) ^ t *
          (survivalVals age0 max_age (defaultA sex) 0.09).getD t 0 := by
    rw [← Finset.sum_filter, range_filter_eq_Ico, hzlen]
    apply Finset.sum_congr rfl
    intro t ht
    rw [Finset.mem_Ico] at ht
    have htz : t < ((List.range' age0 (max_age + 1 - age0)).zip
        (survivalVals age0 max_age (defaultA sex) 0.09)).length := by
      rw [hzlen]; omega
    have htv : t < (survivalVals age0 max_age (defaultA sex) 0.09).length := by
      rw [survivalVals_length]; omega
    rw [List.getD_eq_getElem _ _ htz, List.getElem_zip,
      List.getD_eq_getElem _ _ htv]
  rw [hpv, hsum]

theorem defaultA_pos (sex : Sex) : 0 < defaultA sex := by
  cases sex <;> norm_num [defaultA]

theorem claim_pv_nonneg (age0 max_age d : ℕ) (sex : Sex) (rd : ℝ)
    (hr : -1 < rd) :
    0 ≤ ∑ t ∈ Finset.Ico (d + 1) (max_age - age0 + 1),
      (1 / (1 + rd)) ^ t *
        (survivalVals age0 max_age (defaultA sex) 0.09).getD t 0 := by
  apply Finset.sum_nonneg
  intro t ht
  rw [Finset.mem_Ico] at ht
  have hv : (0 : ℝ) < 1 / (1 + rd) := by
    apply div_pos one_pos
    linarith
  have hvt : (0 : ℝ) ≤ (1 / (1 + rd)) ^ t := le_of_lt (pow_pos hv t)
  have hs : 0 ≤ (survivalVals age0 max_age (defaultA sex) 0.09).getD t 0 := by
    by_cases htl : t < (survivalVals age0 max_age (defaultA sex) 0.09).length
    · exact le_of_lt (survivalVals_pos age0 max_age (defaultA sex) 0.09 t htl)
    · rw [List.getD_eq_default]
      omega
  exact mul_nonneg hvt hs

/-- Claim C5: under a valid age range and discount rate > -1,
annuity_payout_per_dollar is the reciprocal of the survival-weighted present
value (sum over year indices t ≥ deferral_years + 1 within the curve range of
(1/(1+discount))^t * S(t)); the rate is ≥ 0, and it is exactly 0 when the
present value is 0, in particular when the deferral pushes the first payment
past max_age. -/
theorem c5_annuity_payout (age0 max_age d : ℕ) (sex : Sex) (rd : ℝ)
    (hrange : age0 ≤ max_age) (hr : -1 < rd) :
    annuity_payout_per_dollar age0 sex d rd max_age =
      some (if (∑ t ∈ Finset.Ico (d + 1) (max_age - age0 + 1),
          (1 / (1 + rd)) ^ t *
            (survivalVals age0 max_age (defaultA sex) 0.09).getD t 0) = 0
        then 0
        else 1.0 / ∑ t ∈ Finset.Ico (d + 1) (max_age - age0 + 1),
          (1 / (1 + rd)) ^ t *
            (survivalVals age0 max_age (defaultA sex) 0.09).getD t 0) ∧
    (∀ rate, annuity_payout_per_dollar age0 sex d rd max_age = some rate →
      0 ≤ rate) ∧
    (max_age - age0 ≤ d →
      annuity_payout_per_dollar age0 sex d rd max_age = some 0) := by
  have heq := annuity_payout_eq age0 max_age d sex rd hrange
  have hnn := claim_pv_nonneg age0 max_age d sex rd hr
  refine ⟨heq, ?_, ?_⟩
  · intro rate hrate
    rw [heq] at hrate
    injection hrate with hrate
    subst hrate
    by_cases h0 : (∑ t ∈ Finset.Ico (d + 1) (max_age - age0 + 1),
        (1 / (1 + rd)) ^ t *
          (survivalVals age0 max_age (defaultA sex) 0.09).getD t 0) = 0
    · rw [if_pos h0]
    · rw [if_neg h0]
      have hpos : 0 < ∑ t ∈ Finset.Ico (d + 1) (max_age - age0 + 1),
          (1 / (1 + rd)) ^ t *
            (survivalVals age0 max_age (defaultA sex) 0.09).getD t 0 :=
        lt_of_le_of_ne hnn (Ne.symm h0)
      positivity
  · intro hd
    rw [heq]
    have hempty : Finset.Ico (d + 1) (max_age - age0 + 1) = ∅ := by
      apply Finset.Ico_eq_empty
      omega
    rw [hempty]
    simp

/-- Witness for C5 at age0 = 67, max_age = 70, deferral 10 (past max_age),
discount 0.015. -/
theorem c5_witness :
    (67 : ℕ) ≤ 70 ∧ (-1 : ℝ) < 0.015 ∧
    (annuity_payout_per_dollar 67 Sex.male 10 0.015 70 =
      some (if (∑ t ∈ Finset.Ico (10 + 1) (70 - 67 + 1),
          (1 / (1 + (0.015 : ℝ))) ^ t *
            (survivalVals 67 70 (defaultA Sex.male) 0.09).getD t 0) = 0
        then 0
        else 1.0 / ∑ t ∈ Finset.Ico (10 + 1) (70 - 67 + 1),
          (1 / (1 + (0.015 : ℝ))) ^ t *
            (survivalVals 67 70 (defaultA Sex.male) 0.09).getD t 0) ∧
    (∀ rate, annuity_payout_per_dollar 67 Sex.male 10 0.015 70 = some rate →
      0 ≤ rate) ∧
    ((70 : ℕ) - 67 ≤ 10 →
      annuity_payout_per_dollar 67 Sex.male 10 0.015 70 = some 0)) :=
  ⟨by norm_num, by norm_num,
    c5_annuity_payout 67 70 10 Sex.male 0.015 (by norm_num) (by norm_num)⟩

/-- Claim C6: the annuity income schedule covers every age from age0 to
max_age, is 0 at every age strictly below the first payment age
age0 + deferral_years + 1, and equals premium * rate from that age on. -/
theorem c6_schedule (purchase : ℝ) (age0 : ℕ) (sex : Sex) (d : ℕ) (rd : ℝ)
    (max_age : ℕ) (hrange : age0 ≤ max_age) :
    ∃ sched rate,
      annuity_income_schedule purchase age0 sex d rd max_age =
        some (sched, rate) ∧
      annuity_payout_per_dollar age0 sex d rd max_age = some rate ∧
      sched.length = max_age - age0 + 1 ∧
      (∀ i, i < sched.length → (sched.getD i (0, 0)).1 = age0 + i) ∧
      (∀ i, i < sched.length →
        (sched.getD i (0, 0)).2 =
          if age0 + d + 1 ≤ age0 + i then purchase * rate else 0) := by
  have heq := annuity_payout_eq age0 max_age d sex rd hrange
  set rate := (if (∑ t ∈ Finset.Ico (d + 1) (max_age - age0 + 1),
      (1 / (1 + rd)) ^ t *
        (survivalVals age0 max_age (defaultA sex) 0.09).getD t 0) = 0
    then (0 : ℝ)
    else 1.0 / ∑ t ∈ Finset.Ico (d + 1) (max_age - age0 + 1),
      (1 / (1 + rd)) ^ t *
        (survivalVals age0 max_age (defaultA sex) 0.09).getD t 0) with hrate
  refine ⟨(List.range' age0 (max_age + 1 - age0)).map fun age =>
    (age, if age0 + d + 1 ≤ age then purchase * rate else 0), rate, ?_, heq,
    ?_, ?_, ?_⟩
  · rw [annuity_income_schedule, heq]
    simp only [Option.map_some']
  · simp
    omega
  · intro i hi
    simp only [List.length_map, List.length_range'] at hi
    have hil : i < (List.range' age0 (max_age + 1 - age0)).length := by
      simp
      omega
    have him : i < ((List.range' age0 (max_age + 1 - age0)).map fun age =>
        (age, if age0 + d + 1 ≤ age then purchase * rate else 0)).length := by
      simp
      omega
    rw [List.getD_eq_getElem _ _ him, List.getElem_map, List.getElem_range'_1]
  · intro i hi
    simp only [List.length_map, List.length_range'] at hi
    have hil : i < (List.range' age0 (max_age + 1 - age0)).length := by
      simp
      omega
    have him : i < ((List.range' age0 (max_age + 1 - age0)).map fun age =>
        (age, if age0 + d + 1 ≤ age then purchase * rate else 0)).length := by
      simp
      omega
    rw [List.getD_eq_getElem _ _ him, List.getElem_map, List.getElem_range'_1]

/-- Witness for C6 at purchase 100000, age0 = 67, deferral 5, max_age = 90. -/
theorem c6_witness :
    (67 : ℕ) ≤ 90 ∧
    (∃ sched rate,
      annuity_income_schedule 100000 67 Sex.female 5 0.015 90 =
        some (sched, rate) ∧
      annuity_payout_per_dollar 67 Sex.female 5 0.015 90 = some rate ∧
      sched.length = 90 - 67 + 1 ∧
      (∀ i, i < sched.length → (sched.getD i (0, 0)).1 = 67 + i) ∧
      (∀ i, i < sched.length →
        (sched.getD i (0, 0)).2 =
          if 67 + 5 + 1 ≤ 67 + i then (100000 : ℝ) * rate else 0)) :=
  ⟨by norm_num,
    c6_schedule 100000 67 Sex.female 5 0.015 90 (by norm_num)⟩

/-- Witness for C7 (amended) at (67, 67) and (68, 67). -/
theorem c7_witness :
    survival_curve 67 67 Sex.male none 0.09 = some [(67, 1.0)] ∧
    survival_curve 68 67 Sex.female none 0.09 = none :=
  ⟨(c7_amended 67 67 Sex.male none 0.09).1 rfl,
    (c7_amended 68 67 Sex.female none 0.09).2 (by norm_num)⟩

/-! ### Pension means-test lemmas -/

/-- Counterexample to C3 as stated: with every rate and taper nonnegative but
a negative maximum single pension (-1), the returned pension is 0, which is
not ≤ the applicable maximum pension. -/
theorem c3_counterexample :
    age_pension_amount 0 0 0 67 true true true (-1) 43100 4940 8736 0.5
      301750 451500 78 60400 0.0025 0.0225 0.6 0.6 0.3 = 0 ∧
    ¬ (age_pension_amount 0 0 0 67 true true true (-1) 43100 4940 8736 0.5
      301750 451500 78 60400 0.0025 0.0225 0.6 0.6 0.3 ≤ (-1 : ℝ)) := by
  have h : age_pension_amount 0 0 0 67 true true true (-1) 43100 4940 8736 0.5
      301750 451500 78 60400 0.0025 0.0225 0.6 0.6 0.3 = 0 := by
    simp only [age_pension_amount, deeming_income]
    norm_num
  refine ⟨h, ?_⟩
  rw [h]
  norm_num

/-- Claim C3 (amended): with nonnegative rate/taper parameters and
nonnegative maximum pension amounts, age_pension_amount is the minimum of the
income-test result and the assets-test result, each max(0, max_pension -
reduction), the assets test assessing the annuity at the before-84 fraction
of its purchase price while age < 84 and the after-84 fraction from age 84
on; and 0 ≤ pension ≤ the applicable maximum pension. -/
theorem c3_amended (assets ap app : ℝ) (age : ℕ)
    (singles homeowner iar : Bool)
    (ms mc fas fac itp atsh atch ataper dts drl drh aii ab84 aa84 : ℝ)
    (hdrl : 0 ≤ drl) (hdrh : 0 ≤ drh) (hitp : 0 ≤ itp) (hataper : 0 ≤ ataper)
    (hms : 0 ≤ ms) (hmc : 0 ≤ mc) :
    age_pension_amount assets ap app age singles homeowner iar ms mc fas fac
        itp atsh atch ataper dts drl drh aii ab84 aa84 =
      min
        (max 0 ((if singles then ms else mc) -
          max 0 (((deeming_income assets (if singles then dts else dts * 2)
              drl drh +
            (if iar = true ∧ 0 < ap then aii * ap else 0)) -
            (if singles then fas else fac)) * itp)))
        (max 0 ((if singles then ms else mc) -
          max 0 ((assets +
            (if iar = true ∧ 0 < app then
              (if 84 ≤ age then aa84 * app else ab84 * app) else 0)) -
            (if singles then atsh else atch)) / 1000 * ataper)) ∧
    0 ≤ age_pension_amount assets ap app age singles homeowner iar ms mc fas
      fac itp atsh atch ataper dts drl drh aii ab84 aa84 ∧
    age_pension_amount assets ap app age singles homeowner iar ms mc fas fac
        itp atsh atch ataper dts drl drh aii ab84 aa84 ≤
      (if singles then ms else mc) := by
  refine ⟨?_, ?_, ?_⟩
  · simp only [age_pension_amount, deeming_income]
    split_ifs <;> ring_nf
  · simp only [age_pension_amount]
    exact le_min (le_max_left 0 _) (le_max_left 0 _)
  · simp only [age_pension_amount]
    apply le_trans (min_le_left _ _)
    apply max_le
    · split_ifs <;> assumption
    · have h1 : 0 ≤ max 0 (((if iar = true ∧ 0 < ap then
          deeming_income assets (if singles then dts else dts * 2) drl drh +
            aii * ap
        else deeming_income assets (if singles then dts else dts * 2) drl drh)
          - (if singles then fas else fac)) * itp) := le_max_left 0 _
      linarith [le_refl (if singles then ms else mc)]

/-- Witness for C3 (amended) at the source default parameters with assets
250000, annuity payment 3000, purchase price 120000, age 85. -/
theorem c3_witness :
    (0 : ℝ) ≤ 0.0025 ∧ (0 : ℝ) ≤ 0.0225 ∧ (0 : ℝ) ≤ 0.5 ∧ (0 : ℝ) ≤ 78 ∧
    (0 : ℝ) ≤ 28600 ∧ (0 : ℝ) ≤ 43100 ∧
    (age_pension_amount 250000 3000 120000 85 true true true 28600 43100
        4940 8736 0.5 301750 451500 78 60400 0.0025 0.0225 0.6 0.6 0.3 =
      min
        (max 0 ((if (true : Bool) then (28600 : ℝ) else 43100) -
          max 0 (((deeming_income 250000
              (if (true : Bool) then (60400 : ℝ) else 60400 * 2)
              0.0025 0.0225 +
            (if (true : Bool) = true ∧ (0 : ℝ) < 3000 then 0.6 * 3000
              else 0)) -
            (if (true : Bool) then (4940 : ℝ) else 8736)) * 0.5)))
        (max 0 ((if (true : Bool) then (28600 : ℝ) else 43100) -
          max 0 ((250000 +
            (if (true : Bool) = true ∧ (0 : ℝ) < 120000 then
              (if 84 ≤ (85 : ℕ) then 0.3 * 120000 else 0.6 * 120000)
              else 0)) -
            (if (true : Bool) then (301750 : ℝ) else 451500)) / 1000 * 78)) ∧
    0 ≤ age_pension_amount 250000 3000 120000 85 true true true 28600 43100
      4940 8736 0.5 301750 451500 78 60400 0.0025 0.0225 0.6 0.6 0.3 ∧
    age_pension_amount 250000 3000 120000 85 true true true 28600 43100
        4940 8736 0.5 301750 451500 78 60400 0.0025 0.0225 0.6 0.6 0.3 ≤
      (if (true : Bool) then (28600 : ℝ) else 43100)) :=
  ⟨by norm_num, by norm_num, by norm_num, by norm_num, by norm_num,
    by norm_num,
    c3_amended 250000 3000 120000 85 true true true 28600 43100 4940 8736
      0.5 301750 451500 78 60400 0.0025 0.0225 0.6 0.6 0.3 (by norm_num)
      (by norm_num) (by norm_num) (by norm_num) (by norm_num) (by norm_num)⟩

theorem age_pension_amount_homeowner_irrel (assets ap app : ℝ) (age : ℕ)
    (singles iar : Bool) (h1 h2 : Bool)
    (ms mc fas fac itp atsh atch ataper dts drl drh aii ab84 aa84 : ℝ) :
    age_pension_amount assets ap app age singles h1 iar ms mc fas fac itp
        atsh atch ataper dts drl drh aii ab84 aa84 =
      age_pension_amount assets ap app age singles h2 iar ms mc fas fac itp
        atsh atch ataper dts drl drh aii ab84 aa84 := rfl

theorem simLoop_homeowner_irrel (r ti prem : ℝ) (iap s : Bool)
    (h1 h2 : Bool) :
    ∀ (series : List (ℕ × ℝ)) (bal : ℝ),
      simLoop r ti prem iap s h1 bal series =
        simLoop r ti prem iap s h2 bal series := by
  intro series
  induction series with
  | nil => intro bal; rfl
  | cons q rest ih =>
    intro bal
    obtain ⟨age, a_income⟩ := q
    simp only [simLoop]
    rw [age_pension_amount_homeowner_irrel bal a_income prem age s true h1 h2
      28600 43100 4940 8736 0.5 301750 451500 78 60400 0.0025 0.0225 0.60
      0.60 0.30, ih]

/-- Claim C9: the homeowner argument has no effect: two calls to
age_pension_amount, and two calls to simulate_retirement, that differ only in
homeowner produce identical results. -/
theorem c9_homeowner_no_effect :
    (∀ (assets ap app : ℝ) (age : ℕ) (singles iar : Bool) (h1 h2 : Bool)
      (ms mc fas fac itp atsh atch ataper dts drl drh aii ab84 aa84 : ℝ),
      age_pension_amount assets ap app age singles h1 iar ms mc fas fac itp
          atsh atch ataper dts drl drh aii ab84 aa84 =
        age_pension_amount assets ap app age singles h2 iar ms mc fas fac itp
          atsh atch ataper dts drl drh aii ab84 aa84) ∧
    (∀ (sb : ℝ) (ra : ℕ) (sex : Sex) (ti : ℝ) (sc : Scenario) (alloc : ℝ)
      (dy : ℕ) (rann rp rav rs : ℝ) (singles iap : Bool) (h1 h2 : Bool)
      (ma : ℕ),
      simulate_retirement sb ra sex ti sc alloc dy rann rp rav rs singles h1
          iap ma =
        simulate_retirement sb ra sex ti sc alloc dy rann rp rav rs singles
          h2 iap ma) := by
  constructor
  · intro assets ap app age singles iar h1 h2 ms mc fas fac itp atsh atch
      ataper dts drl drh aii ab84 aa84
    rfl
  · intro sb ra sex ti sc alloc dy rann rp rav rs singles iap h1 h2 ma
    simp only [simulate_retirement]
    cases annuity_income_schedule (sb * alloc) ra sex dy rann ma with
    | none => rfl
    | some p =>
      obtain ⟨series, rate⟩ := p
      cases survival_curve ra ma sex none 0.09 with
      | none => rfl
      | some surv =>
        simp only
        rw [simLoop_homeowner_irrel (scenarioRate sc rp rav rs) ti (sb * alloc)
          iap singles h1 h2 series (sb - sb * alloc)]

/-- Claim C10: with all other arguments fixed and nonnegative deeming rates,
income taper and assets taper, age_pension_amount is monotonically
non-increasing in the financial assets argument. -/
theorem c10_pension_antitone_in_assets (a1 a2 ap app : ℝ) (age : ℕ)
    (singles homeowner iar : Bool)
    (ms mc fas fac itp atsh atch ataper dts drl drh aii ab84 aa84 : ℝ)
    (h12 : a1 ≤ a2) (hdrl : 0 ≤ drl) (hdrh : 0 ≤ drh) (hitp : 0 ≤ itp)
    (hataper : 0 ≤ ataper) :
    age_pension_amount a2 ap app age singles homeowner iar ms mc fas fac itp
        atsh atch ataper dts drl drh aii ab84 aa84 ≤
      age_pension_amount a1 ap app age singles homeowner iar ms mc fas fac
        itp atsh atch ataper dts drl drh aii ab84 aa84 := by
  simp only [age_pension_amount, deeming_income]
  split_ifs <;> gcongr

/-! ### Percentile-age lemmas -/

/-- The cumulative survival probability the curve assigns to an age x in
[age0, max_age] (position x - age0 of the values list). -/
def survivalProbAt (age0 max_age : ℕ) (a b : ℝ) (x : ℕ) : ℝ :=
  (survivalVals age0 max_age a b).getD (x - age0) 0

theorem head_filter_eq_find {α : Type} (P : α → Bool) :
    ∀ l : List α, (l.filter P).head? = l.find? P := by
  intro l
  induction l with
  | nil => rfl
  | cons x t ih =>
    by_cases h : P x = true
    · rw [List.filter_cons_of_pos h, List.find?_cons_of_pos _ h]
      rfl
    · rw [List.filter_cons_of_neg (by simpa using h),
        List.find?_cons_of_neg _ (by simpa using h)]
      exact ih

theorem find_zip_none (p : ℝ) :
    ∀ (L : List ℝ) (s : ℕ),
      (((List.range' s L.length).zip L).find? fun q => decide (q.2 < p)) =
          none ↔
        ∀ i, i < L.length → ¬ (L.getD i 0 < p) := by
  intro L
  induction L with
  | nil => intro s; simp
  | cons x T ih =>
    intro s
    rw [List.length_cons, List.range'_succ, List.zip_cons_cons]
    by_cases hx : x < p
    · rw [List.find?_cons_of_pos _ (by simpa using hx)]
      constructor
      · intro h
        exact absurd h (by simp)
      · intro h
        exact absurd hx (by simpa using h 0 (by omega))
    · rw [List.find?_cons_of_neg _ (by simpa using hx)]
      rw [ih (s + 1)]
      constructor
      · intro h i hi
        match i with
        | 0 => simpa using hx
        | j + 1 =>
          have hj := h j (by simpa using hi)
          simpa using hj
      · intro h i hi
        have hj := h (i + 1) (by simp; omega)
        simpa using hj

theorem find_zip_some (p : ℝ) :
    ∀ (L : List ℝ) (s : ℕ) (q : ℕ × ℝ),
      ((((List.range' s L.length).zip L).find? fun q => decide (q.2 < p)) =
          some q ↔
        ∃ i, i < L.length ∧ q = (s + i, L.getD i 0) ∧ L.getD i 0 < p ∧
          ∀ j, j < i → ¬ (L.getD j 0 < p)) := by
  intro L
  induction L with
  | nil => intro s q; simp
  | cons x T ih =>
    intro s q
    rw [List.length_cons, List.range'_succ, List.zip_cons_cons]
    by_cases hx : x < p
    · rw [List.find?_cons_of_pos _ (by simpa using hx)]
      constructor
      · intro h
        have hq := (Option.some.injEq _ _).mp h.symm
        refine ⟨0, by omega, ?_, by simpa using hx, ?_⟩
        · rw [hq]
          simp
        · intro j hj
          exact absurd hj (Nat.not_lt_zero j)
      · rintro ⟨i, hi, hq, hlt, hmin⟩
        match i with
        | 0 =>
          rw [hq]
          simp
        | j + 1 =>
          exact absurd (by simpa using hx : ((x :: T).getD 0 0 < p))
            (hmin 0 (by omega))
    · rw [List.find?_cons_of_neg _ (by simpa using hx)]
      rw [ih (s + 1) q]
      constructor
      · rintro ⟨i, hi, hq, hlt, hmin⟩
        refine ⟨i + 1, by simp; omega, ?_, by simpa using hlt, ?_⟩
        · rw [hq]
          simp only [List.getD_cons_succ, Prod.mk.injEq]
          exact ⟨by omega, by trivial⟩
        · intro j hj
          match j with
          | 0 => simpa using hx
          | m + 1 =>
            have hm := hmin m (by omega)
            simpa using hm
      · rintro ⟨i, hi, hq, hlt, hmin⟩
        match i with
        | 0 => exact absurd (by simpa using hlt) hx
        | j + 1 =>
          refine ⟨j, by simpa using hi, ?_, by simpa using hlt, ?_⟩
          · rw [hq]
            simp only [List.getD_cons_succ, Prod.mk.injEq]
            exact ⟨by omega, by trivial⟩
          · intro m hm
            have h0 := hmin (m + 1) (by omega)
            simpa using h0

theorem percentile_entry_none_iff (age0 max_age : ℕ) (a b p : ℝ)
    (hrange : age0 ≤ max_age) :
    (((((List.range' age0 (max_age + 1 - age0)).zip
          (survivalVals age0 max_age a b)).filter
        fun q => decide (q.2 < p)).head?).map Prod.fst = none ↔
      ∀ x, age0 ≤ x → x ≤ max_age →
        ¬ (survivalProbAt age0 max_age a b x < p)) := by
  have hlen : (survivalVals age0 max_age a b).length = max_age - age0 + 1 := by
    rw [survivalVals_length]; omega
  have hcount : max_age + 1 - age0 = (survivalVals age0 max_age a b).length := by
    omega
  rw [hcount, head_filter_eq_find, Option.map_eq_none', find_zip_none]
  constructor
  · intro h x hx1 hx2
    have hi : x - age0 < (survivalVals age0 max_age a b).length := by omega
    have hx3 : age0 + (x - age0) = x := by omega
    exact h (x - age0) hi
  · intro h i hi
    have hx1 : age0 ≤ age0 + i := by omega
    have hx2 : age0 + i ≤ max_age := by omega
    have h0 := h (age0 + i) hx1 hx2
    unfold survivalProbAt at h0
    rwa [Nat.add_sub_cancel_left] at h0

theorem percentile_entry_some_iff (age0 max_age : ℕ) (a b p : ℝ) (y : ℕ)
    (hrange : age0 ≤ max_age) :
    (((((List.range' age0 (max_age + 1 - age0)).zip
          (survivalVals age0 max_age a b)).filter
        fun q => decide (q.2 < p)).head?).map Prod.fst = some y ↔
      (age0 ≤ y ∧ y ≤ max_age ∧ survivalProbAt age0 max_age a b y < p ∧
        ∀ x, age0 ≤ x → x < y →
          ¬ (survivalProbAt age0 max_age a b x < p))) := by
  have hlen : (survivalVals age0 max_age a b).length = max_age - age0 + 1 := by
    rw [survivalVals_length]; omega
  have hcount : max_age + 1 - age0 = (survivalVals age0 max_age a b).length := by
    omega
  rw [hcount, head_filter_eq_find, Option.map_eq_some']
  constructor
  · rintro ⟨q, hq, hq1⟩
    rw [find_zip_some] at hq
    obtain ⟨i, hi, hqi, hlt, hmin⟩ := hq
    subst hqi
    simp only at hq1
    subst hq1
    refine ⟨by omega, by omega, ?_, ?_⟩
    · unfold survivalProbAt
      rwa [Nat.add_sub_cancel_left]
    · intro x hx1 hx2
      have hj : x - age0 < i := by omega
      have h0 := hmin (x - age0) hj
      unfold survivalProbAt
      exact h0
  · rintro ⟨hy1, hy2, hlt, hmin⟩
    refine ⟨(age0 + (y - age0), (survivalVals age0 max_age a b).getD
      (y - age0) 0), ?_, by simp; omega⟩
    rw [find_zip_some]
    refine ⟨y - age0, by omega, rfl, hlt, ?_⟩
    intro j hj
    have h0 := hmin (age0 + j) (by omega) (by omega)
    unfold survivalProbAt at h0
    rwa [Nat.add_sub_cancel_left] at h0

/-- Claim C8: for each requested percentile p, survival_percentile_ages
returns the first (least) age in the curve range whose cumulative survival
probability is strictly below p, and absent (none) when the probability never
drops below p within the range. -/
theorem c8_percentile_ages (age0 max_age : ℕ) (sex : Sex) (ps : List ℝ)
    (hrange : age0 ≤ max_age) :
    ∃ res, survival_percentile_ages age0 sex ps max_age = some res ∧
      res.length = ps.length ∧
      ∀ k, k < ps.length →
        (res.getD k (0, none)).1 = ps.getD k 0 ∧
        ((res.getD k (0, none)).2 = none ↔
          ∀ x, age0 ≤ x → x ≤ max_age →
            ¬ (survivalProbAt age0 max_age (defaultA sex) 0.09 x <
              ps.getD k 0)) ∧
        (∀ y, (res.getD k (0, none)).2 = some y ↔
          (age0 ≤ y ∧ y ≤ max_age ∧
            survivalProbAt age0 max_age (defaultA sex) 0.09 y < ps.getD k 0 ∧
            ∀ x, age0 ≤ x → x < y →
              ¬ (survivalProbAt age0 max_age (defaultA sex) 0.09 x <
                ps.getD k 0))) := by
  refine ⟨ps.map fun p =>
    (p, (((((List.range' age0 (max_age + 1 - age0)).zip
        (survivalVals age0 max_age (defaultA sex) 0.09)).filter
      fun q => decide (q.2 < p)).head?).map Prod.fst)), ?_, ?_, ?_⟩
  · rw [survival_percentile_ages,
      survival_curve_eq_some age0 max_age sex none 0.09 hrange]
    simp only [Option.map_some', Option.getD_none]
  · rw [List.length_map]
  · intro k hk
    have hkm : k < (ps.map fun p =>
        (p, (((((List.range' age0 (max_age + 1 - age0)).zip
            (survivalVals age0 max_age (defaultA sex) 0.09)).filter
          fun q => decide (q.2 < p)).head?).map Prod.fst))).length := by
      rw [List.length_map]; exact hk
    rw [List.getD_eq_getElem _ _ hkm, List.getElem_map,
      ← List.getD_eq_getElem ps 0 hk]
    refine ⟨rfl, ?_, ?_⟩
    · exact percentile_entry_none_iff age0 max_age (defaultA sex) 0.09
        (ps.getD k 0) hrange
    · intro y
      exact percentile_entry_some_iff age0 max_age (defaultA sex) 0.09
        (ps.getD k 0) y hrange

/-- Witness for C8 at age0 = 67, max_age = 90, percentiles [0.5, 0.25]. -/
theorem c8_witness :
    (67 : ℕ) ≤ 90 ∧
    (∃ res, survival_percentile_ages 67 Sex.male [0.5, 0.25] 90 = some res ∧
      res.length = [(0.5 : ℝ), 0.25].length ∧
      ∀ k, k < [(0.5 : ℝ), 0.25].length →
        (res.getD k (0, none)).1 = [(0.5 : ℝ), 0.25].getD k 0 ∧
        ((res.getD k (0, none)).2 = none ↔
          ∀ x, 67 ≤ x → x ≤ 90 →
            ¬ (survivalProbAt 67 90 (defaultA Sex.male) 0.09 x <
              [(0.5 : ℝ), 0.25].getD k 0)) ∧
        (∀ y, (res.getD k (0, none)).2 = some y ↔
          (67 ≤ y ∧ y ≤ 90 ∧
            survivalProbAt 67 90 (defaultA Sex.male) 0.09 y <
              [(0.5 : ℝ), 0.25].getD k 0 ∧
            ∀ x, 67 ≤ x → x < y →
              ¬ (survivalProbAt 67 90 (defaultA Sex.male) 0.09 x <
                [(0.5 : ℝ), 0.25].getD k 0)))) :=
  ⟨by norm_num,
    c8_percentile_ages 67 90 Sex.male [0.5, 0.25] (by norm_num)⟩

/-- Witness for C10 at assets 100000 ≤ 200000 and the default policy
parameters. -/
theorem c10_witness :
    (100000 : ℝ) ≤ 200000 ∧ (0 : ℝ) ≤ 0.0025 ∧ (0 : ℝ) ≤ 0.0225 ∧
    (0 : ℝ) ≤ 0.5 ∧ (0 : ℝ) ≤ 78 ∧
    age_pension_amount 200000 0 0 67 true true true 28600 43100 4940 8736
        0.5 301750 451500 78 60400 0.0025 0.0225 0.6 0.6 0.3 ≤
      age_pension_amount 100000 0 0 67 true true true 28600 43100 4940 8736
        0.5 301750 451500 78 60400 0.0025 0.0225 0.6 0.6 0.3 :=
  ⟨by norm_num, by norm_num, by norm_num, by norm_num, by norm_num,
    c10_pension_antitone_in_assets 100000 200000 0 0 67 true true true
      28600 43100 4940 8736 0.5 301750 451500 78 60400 0.0025 0.0225 0.6
      0.6 0.3 (by norm_num) (by norm_num) (by norm_num) (by norm_num)
      (by norm_num)⟩

/-! ### Simulation lemmas -/

/-- The ABP balance entering year i: the post-allocation starting balance for
the first year, the previous recorded end-of-year balance afterwards. -/
def prevBal (bal : ℝ) (out : List YearRecord) (i : ℕ) : ℝ :=
  if i = 0 then bal else (out.getD (i - 1) default).abp_balance_end

/-- The relation the simulation loop establishes between a year's input
(scheduled annuity income at an age), the balance entering the year, and the
emitted record. -/
def simRel (r ti prem : ℝ) (ip s ho : Bool) (q : ℕ × ℝ) (prev : ℝ)
    (y : YearRecord) : Prop :=
  y.age = q.1 ∧
  y.annuity_income = q.2 ∧
  y.age_pension = (if ip then
    age_pension_amount prev q.2 prem q.1 s ho true 28600 43100 4940 8736 0.5
      301750 451500 78 60400 0.0025 0.0225 0.60 0.60 0.30 else 0) ∧
  y.abp_income = min (max 0 (ti - q.2 - y.age_pension)) (prev * (1 + r)) ∧
  y.abp_balance_end = prev * (1 + r) - y.abp_income ∧
  y.total_income = y.abp_income + y.age_pension + y.annuity_income

theorem simLoop_length (r ti prem : ℝ) (ip s ho : Bool) :
    ∀ (series : List (ℕ × ℝ)) (bal : ℝ),
      (simLoop r ti prem ip s ho bal series).length = series.length := by
  intro series
  induction series with
  | nil => intro bal; rfl
  | cons q rest ih =>
    intro bal
    obtain ⟨age, a⟩ := q
    simp only [simLoop, List.length_cons, ih]

theorem prevBal_cons (bal b2 : ℝ) (y0 : YearRecord) (out : List YearRecord)
    (j : ℕ) (h : y0.abp_balance_end = b2) :
    prevBal bal (y0 :: out) (j + 1) = prevBal b2 out j := by
  match j with
  | 0 => simp [prevBal, h]
  | m + 1 => simp [prevBal]

theorem simLoop_spec (r ti prem : ℝ) (ip s ho : Bool) :
    ∀ (series : List (ℕ × ℝ)) (bal : ℝ) (i : ℕ), i < series.length →
      simRel r ti prem ip s ho (series.getD i (0, 0))
        (prevBal bal (simLoop r ti prem ip s ho bal series) i)
        ((simLoop r ti prem ip s ho bal series).getD i default) := by
  intro series
  induction series with
  | nil =>
    intro bal i hi
    simp at hi
  | cons q rest ih =>
    intro bal i hi
    obtain ⟨age, a⟩ := q
    match i with
    | 0 => exact ⟨rfl, rfl, rfl, rfl, rfl, rfl⟩
    | j + 1 =>
      have hj : j < rest.length := by simpa using hi
      simp only [simLoop, List.getD_cons_succ]
      rw [prevBal_cons _ _ _ _ _ rfl]
      exact ih _ j hj

theorem attachSurv_age (y : YearRecord) (q : ℕ × ℝ) :
    (attachSurv y q).age = y.age := rfl

theorem attachSurv_abp_income (y : YearRecord) (q : ℕ × ℝ) :
    (attachSurv y q).abp_income = y.abp_income := rfl

theorem attachSurv_age_pension (y : YearRecord) (q : ℕ × ℝ) :
    (attachSurv y q).age_pension = y.age_pension := rfl

theorem attachSurv_annuity_income (y : YearRecord) (q : ℕ × ℝ) :
    (attachSurv y q).annuity_income = y.annuity_income := rfl

theorem attachSurv_total_income (y : YearRecord) (q : ℕ × ℝ) :
    (attachSurv y q).total_income = y.total_income := rfl

theorem attachSurv_abp_balance_end (y : YearRecord) (q : ℕ × ℝ) :
    (attachSurv y q).abp_balance_end = y.abp_balance_end := rfl

theorem annuity_schedule_exists (purchase : ℝ) (age0 : ℕ) (sex : Sex)
    (d : ℕ) (rd : ℝ) (max_age : ℕ) (hrange : age0 ≤ max_age) :
    ∃ series rate,
      annuity_income_schedule purchase age0 sex d rd max_age =
        some (series, rate) ∧
      series.length = max_age + 1 - age0 ∧
      (∀ i, i < series.length → (series.getD i (0, 0)).1 = age0 + i) := by
  obtain ⟨rate, hrate⟩ : ∃ rate,
      annuity_payout_per_dollar age0 sex d rd max_age = some rate :=
    ⟨_, annuity_payout_eq age0 max_age d sex rd hrange⟩
  refine ⟨(List.range' age0 (max_age + 1 - age0)).map fun age =>
    (age, if age0 + d + 1 ≤ age then purchase * rate else 0), rate, ?_, ?_,
    ?_⟩
  · rw [annuity_income_schedule, hrate]
    simp only [Option.map_some']
  · simp
  · intro i hi
    simp only [List.length_map, List.length_range'] at hi
    have him : i < ((List.range' age0 (max_age + 1 - age0)).map fun age =>
        (age, if age0 + d + 1 ≤ age then purchase * rate else 0)).length := by
      simp only [List.length_map, List.length_range']
      omega
    rw [List.getD_eq_getElem _ _ him, List.getElem_map,
      List.getElem_range'_1]

theorem simulate_eq (sb : ℝ) (ra : ℕ) (sex : Sex) (ti : ℝ) (sc : Scenario)
    (alloc : ℝ) (dy : ℕ) (rann rp rav rs : ℝ) (singles ho iap : Bool)
    (ma : ℕ) (series : List (ℕ × ℝ)) (rate : ℝ)
    (hsched : annuity_income_schedule (sb * alloc) ra sex dy rann ma =
      some (series, rate)) (hrange : ra ≤ ma) :
    simulate_retirement sb ra sex ti sc alloc dy rann rp rav rs singles ho
        iap ma =
      some (List.zipWith attachSurv
        (simLoop (scenarioRate sc rp rav rs) ti (sb * alloc) iap singles ho
          (sb - sb * alloc) series)
        ((List.range' ra (ma + 1 - ra)).zip
          (survivalVals ra ma (defaultA sex) 0.09)), rate) := by
  simp only [simulate_retirement, hsched,
    survival_curve_eq_some ra ma sex none 0.09 hrange, Option.getD_none]

theorem zipWith_attachSurv_getD (raw : List YearRecord)
    (surv : List (ℕ × ℝ)) (i : ℕ) (h1 : i < raw.length)
    (h2 : i < surv.length) :
    (List.zipWith attachSurv raw surv).getD i default =
      attachSurv (raw.getD i default) (surv.getD i (0, 0)) := by
  have hz : i < (List.zipWith attachSurv raw surv).length := by
    rw [List.length_zipWith]
    omega
  rw [List.getD_eq_getElem _ _ hz, List.getElem_zipWith,
    List.getD_eq_getElem _ _ h1, List.getD_eq_getElem _ _ h2]

/-- Claim C1: for starting_balance ≥ 0, 0 ≤ annuity_alloc_pct ≤ 1,
retire_age ≤ max_age and a (valid) scenario, simulate_retirement succeeds and
every record has abp_balance_end ≥ 0 and total_income = abp_income +
age_pension + annuity_income exactly, the record list covering exactly the
ages retire_age..max_age, strictly increasing with no gaps. -/
theorem c1_simulation_invariants (sb : ℝ) (ra : ℕ) (sex : Sex) (ti : ℝ)
    (sc : Scenario) (alloc : ℝ) (dy : ℕ) (rann rp rav rs : ℝ)
    (singles ho iap : Bool) (ma : ℕ)
    (hsb : 0 ≤ sb) (halloc0 : 0 ≤ alloc) (halloc1 : alloc ≤ 1)
    (hrange : ra ≤ ma) :
    ∃ recs rate,
      simulate_retirement sb ra sex ti sc alloc dy rann rp rav rs singles ho
          iap ma = some (recs, rate) ∧
      recs.length = ma - ra + 1 ∧
      (∀ i, i < recs.length → (recs.getD i default).age = ra + i) ∧
      (∀ i, i < recs.length →
        0 ≤ (recs.getD i default).abp_balance_end ∧
        (recs.getD i default).total_income =
          (recs.getD i default).abp_income +
            (recs.getD i default).age_pension +
            (recs.getD i default).annuity_income) := by
  obtain ⟨series, rate, hsched, hslen, hsage⟩ :=
    annuity_schedule_exists (sb * alloc) ra sex dy rann ma hrange
  have hsim := simulate_eq sb ra sex ti sc alloc dy rann rp rav rs singles
    ho iap ma series rate hsched hrange
  have hrawlen : (simLoop (scenarioRate sc rp rav rs) ti (sb * alloc) iap
      singles ho (sb - sb * alloc) series).length = series.length :=
    simLoop_length _ _ _ _ _ _ series _
  have hsurvlen : ((List.range' ra (ma + 1 - ra)).zip
      (survivalVals ra ma (defaultA sex) 0.09)).length = ma + 1 - ra := by
    rw [List.length_zip, survivalVals_length]
    simp
    omega
  have hreclen : (List.zipWith attachSurv
      (simLoop (scenarioRate sc rp rav rs) ti (sb * alloc) iap singles ho
        (sb - sb * alloc) series)
      ((List.range' ra (ma + 1 - ra)).zip
        (survivalVals ra ma (defaultA sex) 0.09))).length = ma - ra + 1 := by
    rw [List.length_zipWith, hrawlen, hslen, hsurvlen]
    omega
  refine ⟨_, rate, hsim, hreclen, ?_, ?_⟩
  · intro i hi
    rw [hreclen] at hi
    have hi1 : i < (simLoop (scenarioRate sc rp rav rs) ti (sb * alloc) iap
        singles ho (sb - sb * alloc) series).length := by omega
    have hi2 : i < ((List.range' ra (ma + 1 - ra)).zip
        (survivalVals ra ma (defaultA sex) 0.09)).length := by omega
    rw [zipWith_attachSurv_getD _ _ i hi1 hi2, attachSurv_age]
    have hspec := simLoop_spec (scenarioRate sc rp rav rs) ti (sb * alloc)
      iap singles ho series (sb - sb * alloc) i (by omega)
    rw [hspec.1]
    exact hsage i (by omega)
  · intro i hi
    rw [hreclen] at hi
    have hi1 : i < (simLoop (scenarioRate sc rp rav rs) ti (sb * alloc) iap
        singles ho (sb - sb * alloc) series).length := by omega
    have hi2 : i < ((List.range' ra (ma + 1 - ra)).zip
        (survivalVals ra ma (defaultA sex) 0.09)).length := by omega
    rw [zipWith_attachSurv_getD _ _ i hi1 hi2, attachSurv_abp_balance_end,
      attachSurv_total_income, attachSurv_abp_income, attachSurv_age_pension,
      attachSurv_annuity_income]
    have hspec := simLoop_spec (scenarioRate sc rp rav rs) ti (sb * alloc)
      iap singles ho series (sb - sb * alloc) i (by omega)
    obtain ⟨_, _, _, hdraw, hbal, htot⟩ := hspec
    refine ⟨?_, htot⟩
    rw [hbal, hdraw]
    exact sub_nonneg.mpr (min_le_right _ _)

/-- Witness for C1 at the source defaults (600000 starting balance, ages
67..105, average scenario). -/
theorem c1_witness :
    (0 : ℝ) ≤ 600000 ∧ (0 : ℝ) ≤ 0.3 ∧ (0.3 : ℝ) ≤ 1 ∧ (67 : ℕ) ≤ 105 ∧
    (∃ recs rate,
      simulate_retirement 600000 67 Sex.male 50000 Scenario.average 0.3 0
          0.015 0.01 0.04 0.07 true true true 105 = some (recs, rate) ∧
      recs.length = 105 - 67 + 1 ∧
      (∀ i, i < recs.length → (recs.getD i default).age = 67 + i) ∧
      (∀ i, i < recs.length →
        0 ≤ (recs.getD i default).abp_balance_end ∧
        (recs.getD i default).total_income =
          (recs.getD i default).abp_income +
            (recs.getD i default).age_pension +
            (recs.getD i default).annuity_income)) :=
  ⟨by norm_num, by norm_num, by norm_num, by norm_num,
    c1_simulation_invariants 600000 67 Sex.male 50000 Scenario.average 0.3 0
      0.015 0.01 0.04 0.07 true true true 105 (by norm_num) (by norm_num)
      (by norm_num) (by norm_num)⟩

/-- Claim C2: in every simulated year, the funding gap is
max(0, target - annuity_income - pension), the draw is min(gap, grown
balance) where the grown balance is the previous balance times (1 + scenario
return), the new balance is the grown balance minus the draw, and when the
grown balance is insufficient the draw exhausts it to zero with no error
raised (the run still returns some). -/
theorem c2_drawdown_step (sb : ℝ) (ra : ℕ) (sex : Sex) (ti : ℝ)
    (sc : Scenario) (alloc : ℝ) (dy : ℕ) (rann rp rav rs : ℝ)
    (singles ho iap : Bool) (ma : ℕ) (hrange : ra ≤ ma) :
    ∃ recs rate,
      simulate_retirement sb ra sex ti sc alloc dy rann rp rav rs singles ho
          iap ma = some (recs, rate) ∧
      ∀ i, i < recs.length →
        (recs.getD i default).abp_income =
          min (max 0 (ti - (recs.getD i default).annuity_income -
              (recs.getD i default).age_pension))
            ((if i = 0 then sb - sb * alloc
              else (recs.getD (i - 1) default).abp_balance_end) *
              (1 + scenarioRate sc rp rav rs)) ∧
        (recs.getD i default).abp_balance_end =
          (if i = 0 then sb - sb * alloc
            else (recs.getD (i - 1) default).abp_balance_end) *
            (1 + scenarioRate sc rp rav rs) -
          (recs.getD i default).abp_income ∧
        ((if i = 0 then sb - sb * alloc
            else (recs.getD (i - 1) default).abp_balance_end) *
            (1 + scenarioRate sc rp rav rs) ≤
          max 0 (ti - (recs.getD i default).annuity_income -
            (recs.getD i default).age_pension) →
          (recs.getD i default).abp_balance_end = 0) := by
  obtain ⟨series, rate, hsched, hslen, hsage⟩ :=
    annuity_schedule_exists (sb * alloc) ra sex dy rann ma hrange
  have hsim := simulate_eq sb ra sex ti sc alloc dy rann rp rav rs singles
    ho iap ma series rate hsched hrange
  have hrawlen : (simLoop (scenarioRate sc rp rav rs) ti (sb * alloc) iap
      singles ho (sb - sb * alloc) series).length = series.length :=
    simLoop_length _ _ _ _ _ _ series _
  have hsurvlen : ((List.range' ra (ma + 1 - ra)).zip
      (survivalVals ra ma (defaultA sex) 0.09)).length = ma + 1 - ra := by
    rw [List.length_zip, survivalVals_length]
    simp
    omega
  have hreclen : (List.zipWith attachSurv
      (simLoop (scenarioRate sc rp rav rs) ti (sb * alloc) iap singles ho
        (sb - sb * alloc) series)
      ((List.range' ra (ma + 1 - ra)).zip
        (survivalVals ra ma (defaultA sex) 0.09))).length = ma - ra + 1 := by
    rw [List.length_zipWith, hrawlen, hslen, hsurvlen]
    omega
  refine ⟨_, rate, hsim, ?_⟩
  intro i hi
  rw [hreclen] at hi
  have hi1 : i < (simLoop (scenarioRate sc rp rav rs) ti (sb * alloc) iap
      singles ho (sb - sb * alloc) series).length := by omega
  have hi2 : i < ((List.range' ra (ma + 1 - ra)).zip
      (survivalVals ra ma (defaultA sex) 0.09)).length := by omega
  have hprev : (if i = 0 then sb - sb * alloc
      else ((List.zipWith attachSurv
        (simLoop (scenarioRate sc rp rav rs) ti (sb * alloc) iap singles ho
          (sb - sb * alloc) series)
        ((List.range' ra (ma + 1 - ra)).zip
          (survivalVals ra ma (defaultA sex) 0.09))).getD (i - 1)
        default).abp_balance_end) =
      prevBal (sb - sb * alloc)
        (simLoop (scenarioRate sc rp rav rs) ti (sb * alloc) iap singles ho
          (sb - sb * alloc) series) i := by
    unfold prevBal
    match i with
    | 0 => rfl
    | j + 1 =>
      simp only [Nat.add_sub_cancel]
      rw [if_neg (by omega), if_neg (by omega)]
      rw [zipWith_attachSurv_getD _ _ j (by omega) (by omega),
        attachSurv_abp_balance_end]
  rw [zipWith_attachSurv_getD _ _ i hi1 hi2, attachSurv_abp_balance_end,
    attachSurv_abp_income, attachSurv_age_pension, attachSurv_annuity_income,
    hprev]
  have hspec := simLoop_spec (scenarioRate sc rp rav rs) ti (sb * alloc)
    iap singles ho series (sb - sb * alloc) i (by omega)
  obtain ⟨_, hann, _, hdraw, hbal, _⟩ := hspec
  rw [hann]
  refine ⟨hdraw, hbal, ?_⟩
  intro hinsuf
  rw [hbal, hdraw, min_eq_right hinsuf, sub_self]

/-- Witness for C2 at a run that exhausts the balance (tiny starting
balance, poor scenario). -/
theorem c2_witness :
    (67 : ℕ) ≤ 105 ∧
    (∃ recs rate,
      simulate_retirement 1000 67 Sex.female 50000 Scenario.poor 0 0 0.015
          0.01 0.04 0.07 true true true 105 = some (recs, rate) ∧
      ∀ i, i < recs.length →
        (recs.getD i default).abp_income =
          min (max 0 (50000 - (recs.getD i default).annuity_income -
              (recs.getD i default).age_pension))
            ((if i = 0 then (1000 : ℝ) - 1000 * 0
              else (recs.getD (i - 1) default).abp_balance_end) *
              (1 + scenarioRate Scenario.poor 0.01 0.04 0.07)) ∧
        (recs.getD i default).abp_balance_end =
          (if i = 0 then (1000 : ℝ) - 1000 * 0
            else (recs.getD (i - 1) default).abp_balance_end) *
            (1 + scenarioRate Scenario.poor 0.01 0.04 0.07) -
          (recs.getD i default).abp_income ∧
        ((if i = 0 then (1000 : ℝ) - 1000 * 0
            else (recs.getD (i - 1) default).abp_balance_end) *
            (1 + scenarioRate Scenario.poor 0.01 0.04 0.07) ≤
          max 0 (50000 - (recs.getD i default).annuity_income -
            (recs.getD i default).age_pension) →
          (recs.getD i default).abp_balance_end = 0)) :=
  ⟨by norm_num,
    c2_drawdown_step 1000 67 Sex.female 50000 Scenario.poor 0 0 0.015 0.01
      0.04 0.07 true true true 105 (by norm_num)⟩

end
